import Mathlib

/-!
Verification development for the flutter_sp native audio pipeline.

The C++ sources under src/native are shallowly embedded here:
real-valued float/double arithmetic is modelled by exact real (or rational)
arithmetic; C++ `int` values by `Int` (or `Nat` where the code only ever
holds non-negative values); byte buffers by functions from flat indices to
byte values, with the exact index arithmetic of the source.
-/

open Real

namespace FlutterSp

/-! ### mel_filter.cpp -/

/-- Embeds `mel_frequency` (src/native/src/mel_filter.cpp lines 4-6):
`2595.0 * std::log10(1.0 + frequency / 700.0)`. -/
noncomputable def mel_frequency (frequency : ℝ) : ℝ :=
  2595 * Real.logb 10 (1 + frequency / 700)

/-- Embeds `mel_to_frequency` (src/native/src/mel_filter.cpp lines 8-10):
`700.0 * (std::pow(10.0, mel / 2595.0) - 1.0)`. -/
noncomputable def mel_to_frequency (mel : ℝ) : ℝ :=
  700 * ((10 : ℝ) ^ (mel / 2595) - 1)

/-! ### mel_filter_bank.cpp -/

/-- Embeds `std::round` followed by `static_cast<int>`: rounding half away
from zero to an integer. -/
noncomputable def roundToInt (x : ℝ) : ℤ :=
  if 0 ≤ x then ⌊x + 1 / 2⌋ else -⌊-x + 1 / 2⌋

/-- Embeds `MelFilterBank::freqToBin` (src/native/src/mel_filter_bank.cpp
lines 73-75): `static_cast<int>(std::round(freq * fft_size_ / sample_rate_))`. -/
noncomputable def freqToBin (sample_rate fft_size : ℤ) (freq : ℝ) : ℤ :=
  roundToInt (freq * (fft_size : ℝ) / (sample_rate : ℝ))

/-- Embeds the bin clamping in `MelFilterBank::createTriangularFilter`
(src/native/src/mel_filter_bank.cpp lines 51-53):
`std::max(0, std::min(bin, fft_size_ / 2))`. -/
def clampBin (fft_size b : ℤ) : ℤ :=
  max 0 (min b (fft_size / 2))

/-- Embeds `MelFilterBank::createTriangularFilter`
(src/native/src/mel_filter_bank.cpp lines 41-71).  The C++ builds a zero
vector of length `fft_size/2+1` and then runs a rising-ramp loop over bins
`low_bin..center_bin` (writing only when `center_bin > low_bin`) and a
falling-ramp loop over `center_bin+1..high_bin` (writing only when
`high_bin > center_bin`); the two loops touch disjoint index ranges, so the
result is the per-bin function below. -/
noncomputable def triWeight (low_bin center_bin high_bin b : ℤ) : ℝ :=
  if low_bin < center_bin ∧ low_bin ≤ b ∧ b ≤ center_bin then
    ((b - low_bin : ℤ) : ℝ) / ((center_bin - low_bin : ℤ) : ℝ)
  else if center_bin < high_bin ∧ center_bin < b ∧ b ≤ high_bin then
    ((high_bin - b : ℤ) : ℝ) / ((high_bin - center_bin : ℤ) : ℝ)
  else 0

noncomputable def createTriangularFilter (sample_rate fft_size : ℤ)
    (center_freq low_freq high_freq : ℝ) : List ℝ :=
  (List.range (fft_size / 2 + 1).toNat).map fun (bin : ℕ) =>
    triWeight (clampBin fft_size (freqToBin sample_rate fft_size low_freq))
      (clampBin fft_size (freqToBin sample_rate fft_size center_freq))
      (clampBin fft_size (freqToBin sample_rate fft_size high_freq))
      ((bin : ℤ))

/-- Embeds the mel-point grid of `MelFilterBank::initializeFilters`
(src/native/src/mel_filter_bank.cpp lines 88-93):
`min_mel + (max_mel - min_mel) * i / (num_filters_ + 1)`. -/
noncomputable def melPoint (num_filters : ℤ) (min_freq max_freq : ℝ) (i : ℕ) : ℝ :=
  mel_frequency min_freq +
    (mel_frequency max_freq - mel_frequency min_freq) * (i : ℝ) / ((num_filters : ℝ) + 1)

/-- Embeds the filter-construction loop of `MelFilterBank::initializeFilters`
(src/native/src/mel_filter_bank.cpp lines 96-106): filter `i` is the
triangular filter with edges at the frequencies of mel points `i`, `i+1`,
`i+2`. -/
noncomputable def melFilterList (sample_rate fft_size num_filters : ℤ)
    (min_freq max_freq : ℝ) : List (List ℝ) :=
  (List.range num_filters.toNat).map fun i =>
    createTriangularFilter sample_rate fft_size
      (mel_to_frequency (melPoint num_filters min_freq max_freq (i + 1)))
      (mel_to_frequency (melPoint num_filters min_freq max_freq i))
      (mel_to_frequency (melPoint num_filters min_freq max_freq (i + 2)))

/-- State of a constructed `MelFilterBank` object
(src/native/include/mel_filter_bank.h lines 48-55). -/
structure MelFilterBank where
  sample_rate : ℤ
  fft_size : ℤ
  num_filters : ℤ
  min_freq : ℝ
  max_freq : ℝ
  filters : List (List ℝ)

/-- Embeds the constructor `MelFilterBank::MelFilterBank`
(src/native/src/mel_filter_bank.cpp lines 6-11): it stores the five
parameters and calls `initializeFilters()`; it contains no validity check of
any kind. -/
noncomputable def mkMelFilterBank (sample_rate fft_size num_filters : ℤ)
    (min_freq max_freq : ℝ) : MelFilterBank :=
  { sample_rate := sample_rate, fft_size := fft_size, num_filters := num_filters,
    min_freq := min_freq, max_freq := max_freq,
    filters := melFilterList sample_rate fft_size num_filters min_freq max_freq }

/-- The construction-time error taxonomy of the specification (section 7). -/
inductive ConfigError where
  | invalidConfiguration
  deriving DecidableEq

/-- Construction of a `MelFilterBank` as a fallible operation.  The C++
constructor (src/native/src/mel_filter_bank.cpp lines 6-11) has no failure
path at all - it performs no parameter validation - so the embedding always
returns `Except.ok`. -/
noncomputable def constructMelFilterBank (sample_rate fft_size num_filters : ℤ)
    (min_freq max_freq : ℝ) : Except ConfigError MelFilterBank :=
  Except.ok (mkMelFilterBank sample_rate fft_size num_filters min_freq max_freq)

/-- Embeds `MelFilterBank::getFilter` (src/native/src/mel_filter_bank.cpp
lines 13-19). -/
noncomputable def MelFilterBank.getFilter (bank : MelFilterBank) (filter_idx : ℤ) : List ℝ :=
  if filter_idx < 0 ∨ bank.num_filters ≤ filter_idx then []
  else bank.filters.getD filter_idx.toNat []

/-- Embeds `MelFilterBank::apply` (src/native/src/mel_filter_bank.cpp
lines 21-39): a zero vector of length `num_filters_` is created; if the
power spectrum's length differs from `fft_size_/2 + 1` it is returned as
is, otherwise each entry is filled with the weighted bin sum. -/
noncomputable def MelFilterBank.apply (bank : MelFilterBank)
    (power_spectrum : List ℝ) : List ℝ :=
  if (power_spectrum.length : ℤ) ≠ bank.fft_size / 2 + 1 then
    List.replicate bank.num_filters.toNat 0
  else
    (List.range bank.num_filters.toNat).map fun filter_idx =>
      ∑ bin ∈ Finset.range power_spectrum.length,
        power_spectrum.getD bin 0 * (bank.filters.getD filter_idx []).getD bin 0

/-! ### mel_spectrogram.cpp -/

/-- Embeds `AudioConfig` (src/native/include/mel_spectrogram.h lines 10-17). -/
structure AudioConfig where
  sampleRate : ℤ := 32000
  frameSize : ℤ := 1024
  hopSize : ℤ := 512
  numMelBands : ℤ := 64
  minFreq : ℝ := 20
  maxFreq : ℝ := 8000

/-- Embeds `ProcessingStats` (src/native/include/mel_spectrogram.h
lines 19-24).  Stat values are measured times, modelled as exact rationals. -/
structure ProcessingStats where
  processingTimeMs : ℚ := 0
  fps : ℚ := 0
  cpuUsage : ℚ := 0
  droppedFrames : ℤ := 0
  deriving DecidableEq

/-- The `PI` constant of mel_spectrogram.cpp line 11 (an approximation of pi,
kept exactly as written in the source). -/
def procPI : ℝ := 3.14159265359

/-- Embeds `MelSpectrogramProcessor::createWindowFunction`
(src/native/src/mel_spectrogram.cpp lines 138-143):
`0.5f * (1 - cos(2 * PI * i / (frameSize - 1)))`. -/
noncomputable def hannWindow (frameSize : ℤ) : List ℝ :=
  (List.range frameSize.toNat).map fun i =>
    1 / 2 * (1 - Real.cos (2 * procPI * (i : ℝ) / ((frameSize : ℝ) - 1)))

/-- Embeds `MelSpectrogramProcessor::createMelFilterBank`
(src/native/src/mel_spectrogram.cpp lines 145-180).  The member functions
`freqToMel`/`melToFreq` (lines 182-188) compute the same formulas as
`mel_frequency`/`mel_to_frequency` and are reused here.  Unlike
`MelFilterBank`, this version compares each bin's frequency against the
edge frequencies directly (no rounding of edges to bins). -/
noncomputable def procMelFilterBank (config : AudioConfig) : List (List ℝ) :=
  let freqPoint : ℕ → ℝ := fun i =>
    mel_to_frequency (mel_frequency config.minFreq +
      (mel_frequency config.maxFreq - mel_frequency config.minFreq) * (i : ℝ) /
        ((config.numMelBands : ℝ) + 1))
  (List.range config.numMelBands.toNat).map fun melBand =>
    (List.range (config.frameSize / 2 + 1).toNat).map fun freqBin =>
      let freq := (freqBin : ℝ) * (config.sampleRate : ℝ) / (config.frameSize : ℝ)
      let leftFreq := freqPoint melBand
      let centerFreq := freqPoint (melBand + 1)
      let rightFreq := freqPoint (melBand + 2)
      if leftFreq ≤ freq ∧ freq ≤ centerFreq then
        (freq - leftFreq) / (centerFreq - leftFreq)
      else if centerFreq ≤ freq ∧ freq ≤ rightFreq then
        (rightFreq - freq) / (rightFreq - centerFreq)
      else 0

/-- Modelled from the spec: the forward transform run by
`MelSpectrogramProcessor::performFFT` (src/native/src/mel_spectrogram.cpp
lines 80-84) is computed by the external KissFFT library, which is not part
of this repository; per the specification's "Spectral Engine" (a real-input
forward transform) it is the standard discrete Fourier transform
`out[k] = sum_n in[n] * exp(-2*pi*I*k*n/N)`. -/
noncomputable def dft (input : List ℝ) : List ℂ :=
  (List.range input.length).map fun (k : ℕ) =>
    ∑ n ∈ Finset.range input.length,
      (input.getD n 0 : ℂ) *
        Complex.exp (-2 * (Real.pi : ℂ) * Complex.I * (k : ℂ) * (n : ℂ) / (input.length : ℂ))

/-- Embeds `MelSpectrogramProcessor::computePowerSpectrum`
(src/native/src/mel_spectrogram.cpp lines 86-92):
`(real * real + imag * imag) / frameSize` for bins `0..frameSize/2`. -/
noncomputable def computePowerSpectrumList (fftOutput : List ℂ) (frameSize : ℤ) : List ℝ :=
  (List.range (frameSize / 2 + 1).toNat).map fun i =>
    let z := fftOutput.getD i 0
    (z.re * z.re + z.im * z.im) / (frameSize : ℝ)

/-- Embeds `MelSpectrogramProcessor::applyMelFilterBank`
(src/native/src/mel_spectrogram.cpp lines 94-102). -/
noncomputable def applyMelFilterBankList (power : List ℝ) (fb : List (List ℝ))
    (numMelBands frameSize : ℤ) : List ℝ :=
  (List.range numMelBands.toNat).map fun melBand =>
    ∑ freqBin ∈ Finset.range (frameSize / 2 + 1).toNat,
      power.getD freqBin 0 * (fb.getD melBand []).getD freqBin 0

/-- The `MIN_LOG_VALUE` constant of mel_spectrogram.cpp line 12 (`1e-10f`,
modelled as the exact rational it denotes). -/
noncomputable def MIN_LOG_VALUE : ℝ := 1 / 10000000000

/-- Embeds the log-compression step of
`MelSpectrogramProcessor::convertToLogScale`
(src/native/src/mel_spectrogram.cpp lines 105-107):
`10 * log10(max(value, MIN_LOG_VALUE))`. -/
noncomputable def logCompress (value : ℝ) : ℝ :=
  10 * Real.logb 10 (max value MIN_LOG_VALUE)

/-- Embeds `*std::min_element(xs.begin(), xs.end())` on a non-empty vector
(the C++ call has undefined behaviour on an empty one; the `[]` case below
is arbitrary). -/
noncomputable def listMin : List ℝ → ℝ
  | [] => 0
  | x :: xs => xs.foldl min x

/-- Embeds `*std::max_element(xs.begin(), xs.end())` on a non-empty vector. -/
noncomputable def listMax : List ℝ → ℝ
  | [] => 0
  | x :: xs => xs.foldl max x

/-- Embeds the normalization step of
`MelSpectrogramProcessor::convertToLogScale`
(src/native/src/mel_spectrogram.cpp lines 109-118): when
`maxValue - minValue > 0` every entry is replaced by
`(value - minValue) / range`; otherwise the vector is left unchanged. -/
noncomputable def normalizeList (xs : List ℝ) : List ℝ :=
  if listMax xs - listMin xs > 0 then
    xs.map fun v => (v - listMin xs) / (listMax xs - listMin xs)
  else xs

/-- Embeds `MelSpectrogramProcessor::convertToLogScale`
(src/native/src/mel_spectrogram.cpp lines 104-119) as a whole. -/
noncomputable def convertToLogScale (xs : List ℝ) : List ℝ :=
  normalizeList (xs.map logCompress)

/-- Embeds `MelSpectrogramProcessor::applyColorMapping`
(src/native/src/mel_spectrogram.cpp lines 121-136).  The byte buffer
`colorMappedData_` is modelled as a function from flat byte index
`i * 4 + channel` to byte value; `static_cast<int>` of the non-negative
float `normalizedValue * (colorMap_.size() - 1)` is truncation, i.e. floor. -/
noncomputable def applyColorMappingFn (melSpectrum : List ℝ)
    (colorMap : List (ℕ × ℕ × ℕ)) (numMelBands : ℤ) : ℕ → ℕ := fun j =>
  let i := j / 4
  let c := j % 4
  if i < numMelBands.toNat then
    let v0 := melSpectrum.getD i 0
    let v1 := if v0 < 0 then 0 else v0
    let v2 := if v1 > 1 then 1 else v1
    let colorIndex := (⌊v2 * ((colorMap.length : ℝ) - 1)⌋).toNat
    let col := colorMap.getD colorIndex (0, 0, 0)
    match c with
    | 0 => col.1
    | 1 => col.2.1
    | 2 => col.2.2
    | _ => 255
  else 0

/-- Embeds `createViridisColorMap` (src/native/src/mel_spectrogram.cpp
lines 228-252): 256 entries linearly interpolated between (68,1,84) and
(59,184,56), clamped and truncated to bytes.  Computed over exact
rationals. -/
def createViridisColorMap : List (ℕ × ℕ × ℕ) :=
  (List.range 256).map fun i =>
    let t : ℚ := (i : ℚ) / 255
    let rv := 68 + t * (59 - 68)
    let gv := 1 + t * (184 - 1)
    let bv := 84 + t * (56 - 84)
    let clamp : ℚ → ℚ := fun x => if x < 0 then 0 else if x > 255 then 255 else x
    ((⌊clamp rv⌋).toNat, (⌊clamp gv⌋).toNat, (⌊clamp bv⌋).toNat)

/-- State of a `MelSpectrogramProcessor`
(src/native/include/mel_spectrogram.h lines 62-85).  The scratch FFT
buffers `fftInput_`/`fftOutput_` are recomputed from the frame on every
call and carry no information between calls; they are left out.  Wall-clock
time sources are passed to `processAudioFrame` as explicit arguments. -/
structure PState where
  config : AudioConfig
  windowFunction : List ℝ
  melFilterBank : List (List ℝ)
  powerSpectrum : List ℝ
  melSpectrum : List ℝ
  colorMappedData : ℕ → ℕ
  colorMap : List (ℕ × ℕ × ℕ)
  stats : ProcessingStats
  frameCount : ℤ

/-- Embeds the constructor `MelSpectrogramProcessor::MelSpectrogramProcessor`
(src/native/src/mel_spectrogram.cpp lines 15-37): buffers are resized (and
thus zero-filled), the window and filter bank are built, and the default
color map is viridis. -/
noncomputable def initState (config : AudioConfig) : PState :=
  { config := config,
    windowFunction := hannWindow config.frameSize,
    melFilterBank := procMelFilterBank config,
    powerSpectrum := List.replicate (config.frameSize / 2 + 1).toNat 0,
    melSpectrum := List.replicate config.numMelBands.toNat 0,
    colorMappedData := fun _ => 0,
    colorMap := createViridisColorMap,
    stats := {},
    frameCount := 0 }

/-- Embeds `MelSpectrogramProcessor::processAudioFrame`
(src/native/src/mel_spectrogram.cpp lines 45-78).  `input = none` models a
null pointer; a `some` input models a buffer whose `inputSize` is its
length.  `durationUs` is the measured per-frame processing time in
microseconds (the integral value of `duration_cast<microseconds>`), and
`elapsedMs` the measured milliseconds since `lastFrameTime_`, both
nondeterministic wall-clock readings passed in explicitly.  The per-call
pipeline stages (the body of lines 52-75) are named `frameFftInput`,
`framePower`, `frameMelRaw`, `frameMelSpectrum` and `frameStats` below.
`frameFftInput` embeds the int16-to-float conversion and windowing of
lines 52-57: `input[i] * windowFunction_[i] / 32768.0f`. -/
noncomputable def frameFftInput (s : PState) (frame : List ℤ) : List ℝ :=
  (List.range s.config.frameSize.toNat).map fun i =>
    (frame.getD i 0 : ℝ) * s.windowFunction.getD i 0 / 32768

/-- The power spectrum computed for one frame (lines 59-60 of
processAudioFrame's body). -/
noncomputable def framePower (s : PState) (frame : List ℤ) : List ℝ :=
  computePowerSpectrumList (dft (frameFftInput s frame)) s.config.frameSize

/-- The raw mel-band energies computed for one frame (line 61). -/
noncomputable def frameMelRaw (s : PState) (frame : List ℤ) : List ℝ :=
  applyMelFilterBankList (framePower s frame) s.melFilterBank
    s.config.numMelBands s.config.frameSize

/-- The final (log-compressed, possibly normalized) mel spectrum computed
for one frame (line 62). -/
noncomputable def frameMelSpectrum (s : PState) (frame : List ℤ) : List ℝ :=
  convertToLogScale (frameMelRaw s frame)

/-- The stats value after a successful frame (lines 65-75): the
processing-time stat is overwritten with this frame's measured time; every
30th frame also recomputes the FPS figure. -/
def frameStats (s : PState) (durationUs : ℤ) (elapsedMs : ℚ) : ProcessingStats :=
  let stats1 : ProcessingStats :=
    { s.stats with processingTimeMs := (durationUs : ℚ) / 1000 }
  if (s.frameCount + 1) % 30 = 0 then { stats1 with fps := 30000 / elapsedMs }
  else stats1

noncomputable def processAudioFrame (s : PState) (input : Option (List ℤ))
    (durationUs : ℤ) (elapsedMs : ℚ) : PState × Bool :=
  match input with
  | none => (s, false)
  | some frame =>
    if (frame.length : ℤ) ≠ s.config.frameSize then (s, false)
    else
      ({ s with powerSpectrum := framePower s frame,
                melSpectrum := frameMelSpectrum s frame,
                colorMappedData := applyColorMappingFn (frameMelSpectrum s frame)
                  s.colorMap s.config.numMelBands,
                stats := frameStats s durationUs elapsedMs,
                frameCount := s.frameCount + 1 },
       true)

/-- Embeds `MelSpectrogramProcessor::getMelSpectrum`
(src/native/src/mel_spectrogram.cpp lines 190-192). -/
def getMelSpectrum (s : PState) : List ℝ := s.melSpectrum

/-- Embeds `MelSpectrogramProcessor::getColorMappedData`
(src/native/src/mel_spectrogram.cpp lines 194-196), as the flat byte-buffer
function. -/
def getColorMappedData (s : PState) : ℕ → ℕ := s.colorMappedData

/-! ### texture_renderer.cpp

The renderer's buffers (`ringBuffer_`, `mockTextureData_`) are byte vectors;
they are modelled as functions from flat byte index to byte value, using the
exact index arithmetic of the source.  The renderer's dimensions are C++
`int` values that are only ever non-negative; they are modelled as `Nat`.
A `TextureRenderer` is always constructed in mock mode (constructor lines
72-76), the only mode reachable without an OpenGL context, so `mockMode_`
and `initialized_` are both always `true` and are not stored. -/

/-- The viridis color stops `TextureRenderer::viridisColors_`
(src/native/src/texture_renderer.cpp lines 17-27). -/
def viridisColors : List (ℚ × ℕ × ℕ × ℕ) :=
  [(0, 68, 1, 84), (13/100, 71, 44, 122), (1/4, 59, 81, 139),
   (38/100, 44, 113, 142), (1/2, 33, 144, 140), (63/100, 39, 173, 129),
   (3/4, 92, 200, 99), (88/100, 170, 220, 50), (1, 253, 231, 37)]

/-- The inferno color stops `TextureRenderer::infernoColors_`
(src/native/src/texture_renderer.cpp lines 30-40). -/
def infernoColors : List (ℚ × ℕ × ℕ × ℕ) :=
  [(0, 0, 0, 4), (13/100, 31, 12, 72), (1/4, 85, 15, 109),
   (38/100, 136, 19, 97), (1/2, 186, 25, 51), (63/100, 219, 51, 28),
   (3/4, 232, 113, 32), (88/100, 236, 173, 55), (1, 252, 255, 164)]

/-- The plasma color stops `TextureRenderer::plasmaColors_`
(src/native/src/texture_renderer.cpp lines 43-53). -/
def plasmaColors : List (ℚ × ℕ × ℕ × ℕ) :=
  [(0, 13, 8, 135), (13/100, 84, 2, 163), (1/4, 139, 10, 165),
   (38/100, 185, 50, 137), (1/2, 219, 92, 104), (63/100, 244, 136, 73),
   (3/4, 254, 188, 43), (88/100, 240, 249, 33), (1, 240, 249, 33)]

/-- Embeds `TextureRenderer::interpolateColor`
(src/native/src/texture_renderer.cpp lines 222-256).  The search loop
`for (; i < size-1; ++i) if (value <= t[i+1]) break;` leaves `i` at the
first index whose successor stop's threshold is `>= value`, or at `size-1`
when there is none; `List.findIdx` on the tail returns exactly that index.
`static_cast<uint8_t>` of the non-negative in-range float is truncation,
i.e. floor. -/
def interpolateColor (value : ℚ) (colorMap : List (ℚ × ℕ × ℕ × ℕ)) : ℕ × ℕ × ℕ :=
  let v0 := if value < 1 then value else 1
  let v := if 0 < v0 then v0 else 0
  let i := (colorMap.drop 1).findIdx fun s => v ≤ s.1
  if colorMap.length - 1 ≤ i then
    let last := colorMap.getLastD (0, 0, 0, 0)
    (last.2.1, last.2.2.1, last.2.2.2)
  else
    let s1 := colorMap.getD i (0, 0, 0, 0)
    let s2 := colorMap.getD (i + 1) (0, 0, 0, 0)
    let factor := (v - s1.1) / (s2.1 - s1.1)
    ((⌊(s1.2.1 : ℚ) * (1 - factor) + (s2.2.1 : ℚ) * factor + 1/2⌋).toNat,
     (⌊(s1.2.2.1 : ℚ) * (1 - factor) + (s2.2.2.1 : ℚ) * factor + 1/2⌋).toNat,
     (⌊(s1.2.2.2 : ℚ) * (1 - factor) + (s2.2.2.2 : ℚ) * factor + 1/2⌋).toNat)

/-- Embeds the per-band color conversion of `TextureRenderer::updateColumn`
(src/native/src/texture_renderer.cpp lines 164-183) as the byte content of
the freshly written ring-buffer column: offset `off = band * 4 + channel`
relative to the column's base index.  Clamp and normalization follow lines
168-172; `applyColorMap` (lines 213-220) dispatches to `interpolateColor`. -/
def clampNorm (minValue maxValue v0 : ℚ) : ℚ :=
  ((if minValue < (if v0 < maxValue then v0 else maxValue) then
      (if v0 < maxValue then v0 else maxValue)
    else minValue) - minValue) / (maxValue - minValue)

def colorizeColumn (melData : List ℚ) (minValue maxValue : ℚ)
    (colorMap : List (ℚ × ℕ × ℕ × ℕ)) : ℕ → ℕ := fun off =>
  if off / 4 < melData.length then
    match off % 4 with
    | 0 => (interpolateColor (clampNorm minValue maxValue (melData.getD (off / 4) 0))
        colorMap).1
    | 1 => (interpolateColor (clampNorm minValue maxValue (melData.getD (off / 4) 0))
        colorMap).2.1
    | 2 => (interpolateColor (clampNorm minValue maxValue (melData.getD (off / 4) 0))
        colorMap).2.2
    | _ => 255
  else 0

/-- State of a `TextureRenderer` (src/native/include/texture_renderer.h).
`ringBuffer` and `mockTexture` are flat byte buffers as functions;
`lastUpdateTimeMs_` is a wall-clock measurement and is not modelled. -/
structure TRState where
  width : ℕ
  height : ℕ
  numMelBands : ℕ
  minValue : ℚ
  maxValue : ℚ
  currentColorMap : ℕ
  colorMaps : List (List (ℚ × ℕ × ℕ × ℕ))
  currentColumn : ℕ
  ringBuffer : ℕ → ℕ
  mockTexture : ℕ → ℕ

/-- Embeds the constructor `TextureRenderer::TextureRenderer`
(src/native/src/texture_renderer.cpp lines 55-77): both byte buffers are
zero-filled, then every pixel of `mockTextureData_` gets alpha 255
(`mockTextureData_[i * 4 + 3] = 255` for `i < width * height`); defaults
are viridis, value range [0,1], column cursor 0, mock mode on. -/
def mkTextureRenderer (width height numMelBands : ℕ) : TRState :=
  { width := width, height := height, numMelBands := numMelBands,
    minValue := 0, maxValue := 1,
    currentColorMap := 0,
    colorMaps := [viridisColors, infernoColors, plasmaColors],
    currentColumn := 0,
    ringBuffer := fun _ => 0,
    mockTexture := fun j => if j < 4 * (width * height) ∧ j % 4 = 3 then 255 else 0 }

/-- Embeds the ring-buffer write of `TextureRenderer::updateColumn`
(src/native/src/texture_renderer.cpp lines 164-183): the write loop covers
exactly the byte indices `(currentColumn * numMelBands + band) * 4 + c`
for `band < numMelBands`, `c < 4`, i.e. the contiguous flat range
`[4 * numMelBands * currentColumn, 4 * numMelBands * (currentColumn + 1))`,
filled from `colorizeColumn` at the offset within the column. -/
def writeRingColumn (ring : ℕ → ℕ) (currentColumn numMelBands : ℕ)
    (col : ℕ → ℕ) : ℕ → ℕ := fun j =>
  if 4 * numMelBands * currentColumn ≤ j ∧ j < 4 * numMelBands * (currentColumn + 1)
  then col (j - 4 * numMelBands * currentColumn)
  else ring j

/-- Embeds the mock-mode raster update of `TextureRenderer::updateColumn`
(src/native/src/texture_renderer.cpp lines 189-201): for each `y < height`
the quad at `textureIndex = ((height-1-y) * width + currentColumn) * 4` is
copied from the just-written ring column at band
`min (y * numMelBands / height) (numMelBands - 1)`.  The indices written
are exactly those `j` with `j / 4 < width * height` and
`(j / 4) % width = currentColumn` (requires `currentColumn < width`); for
such `j` the raster row is `r = (j / 4) / width` and `y = height - 1 - r`. -/
def mockWrite (mock : ℕ → ℕ) (ring : ℕ → ℕ)
    (currentColumn width height numMelBands : ℕ) : ℕ → ℕ := fun j =>
  if (j / 4) % width = currentColumn ∧ j / 4 < width * height then
    ring (4 * numMelBands * currentColumn +
      4 * min ((height - 1 - (j / 4) / width) * numMelBands / height)
        (numMelBands - 1) + j % 4)
  else mock j

/-- Embeds `TextureRenderer::updateColumn`
(src/native/src/texture_renderer.cpp lines 153-211) in the (default, and
only constructible) mock mode: reject a wrong-length column, otherwise
color-map it into the ring buffer, update the raster column, and advance
`currentColumn_ = (currentColumn_ + 1) % width_`. -/
def updateColumn (s : TRState) (melData : List ℚ) : TRState × Bool :=
  if melData.length ≠ s.numMelBands then (s, false)
  else
    let cmap := s.colorMaps.getD s.currentColorMap []
    let col := colorizeColumn melData s.minValue s.maxValue cmap
    let ring2 := writeRingColumn s.ringBuffer s.currentColumn s.numMelBands col
    let mock2 := mockWrite s.mockTexture ring2 s.currentColumn
      s.width s.height s.numMelBands
    ({ s with ringBuffer := ring2, mockTexture := mock2,
              currentColumn := (s.currentColumn + 1) % s.width }, true)

/-- Embeds the raster rebuild `TextureRenderer::updateTextureSubImage`
(src/native/src/texture_renderer.cpp lines 258-287), the non-mock path run
by `updateColumn` before `advanceColumn()`.  `organizedData` fills the
destination quad at `dstIndex = ((height-1-y) * width + x) * 4` from ring
column `ringCol = (currentColumn - width + x + width) % width` (all C++
`int` arithmetic, equal to `(currentColumn + x) % width` for
`currentColumn < width`) at band `min (y * numMelBands / height)
(numMelBands - 1)`.  The function below gives the byte at source row `y`,
raster column `x`, channel `c`; `cur` is `currentColumn_` at call time
(i.e. the column just written, before the advance). -/
def organizeByte (ring : ℕ → ℕ) (cur width height numMelBands : ℕ)
    (x y c : ℕ) : ℕ :=
  ring (4 * numMelBands * ((cur + x) % width) +
        4 * min (y * numMelBands / height) (numMelBands - 1) + c)

/-- Embeds `TextureRenderer::getTextureData`
(src/native/src/texture_renderer.cpp lines 302-318) in mock mode: a copy
of `mockTextureData_`. -/
def getTextureData (s : TRState) : ℕ → ℕ := s.mockTexture

/-- Runs a sequence of `updateColumn` calls (the return flags are
discarded, as in the C++ caller `update_texture_column`). -/
def runUpdates (s0 : TRState) (ds : List (List ℚ)) : TRState :=
  ds.foldl (fun s d => (updateColumn s d).1) s0

/-- The raster rebuild exactly as the specification words it (for claim C4):
iterate columns in chronological order starting at ring column
`(currentColumn - width + 1) mod width`, so raster column `x` shows the
`x`-th oldest of the most recent `width` writes; after `n >= width` writes
`ds` that is write `ds[n - width + x]`. -/
def chronoRasterSpec (ds : List (List ℚ)) (width height numMelBands : ℕ)
    (x y c : ℕ) : ℕ :=
  colorizeColumn (ds.getD (ds.length - width + x) []) 0 1 viridisColors
    (4 * min (y * numMelBands / height) (numMelBands - 1) + c)

/-- Every alpha byte of the mock raster is 255 (within the buffer). -/
def AlphaOk (s : TRState) : Prop :=
  ∀ j, j % 4 = 3 → j < 4 * (s.width * s.height) → s.mockTexture j = 255

/-! ### Concrete instances used in counterexamples and witnesses -/

/-- A small valid configuration: frameSize 4 (a power of two), two mel
bands, frequency range [0, 5600] with 5600 below sampleRate / 2. -/
def cfg4 : AudioConfig :=
  { sampleRate := 32000, frameSize := 4, hopSize := 2, numMelBands := 2,
    minFreq := 0, maxFreq := 5600 }

/-- An all-zero four-sample frame. -/
def zeroFrame4 : List ℤ := [0, 0, 0, 0]

/-! ## Theorems -/

/-! ### Basic lemmas about the mel scale -/

theorem mel_frequency_zero : mel_frequency 0 = 0 := by
  unfold mel_frequency
  norm_num

/-- The two mel-scale conversions are exact inverses on non-negative
frequencies (exact real arithmetic). -/
theorem mel_roundtrip {f : ℝ} (hf : 0 ≤ f) :
    mel_to_frequency (mel_frequency f) = f := by
  have h1 : (0 : ℝ) < 1 + f / 700 := by positivity
  unfold mel_to_frequency mel_frequency
  rw [show (2595 : ℝ) * Real.logb 10 (1 + f / 700) / 2595
        = Real.logb 10 (1 + f / 700) by ring]
  rw [Real.rpow_logb (by norm_num) (by norm_num) h1]
  ring

/-! ### Basic lemmas about processAudioFrame -/

theorem processAudioFrame_none (s : PState) (d : ℤ) (e : ℚ) :
    processAudioFrame s none d e = (s, false) := rfl

theorem processAudioFrame_badLength (s : PState) (frame : List ℤ) (d : ℤ) (e : ℚ)
    (h : (frame.length : ℤ) ≠ s.config.frameSize) :
    processAudioFrame s (some frame) d e = (s, false) := by
  simp [processAudioFrame, h]

theorem processAudioFrame_success (s : PState) (frame : List ℤ) (d : ℤ) (e : ℚ)
    (h : (frame.length : ℤ) = s.config.frameSize) :
    processAudioFrame s (some frame) d e =
      ({ s with powerSpectrum := framePower s frame,
                melSpectrum := frameMelSpectrum s frame,
                colorMappedData := applyColorMappingFn (frameMelSpectrum s frame)
                  s.colorMap s.config.numMelBands,
                stats := frameStats s d e,
                frameCount := s.frameCount + 1 }, true) := by
  simp [processAudioFrame, h]

theorem frameStats_processingTimeMs (s : PState) (d : ℤ) (e : ℚ) :
    (frameStats s d e).processingTimeMs = (d : ℚ) / 1000 := by
  unfold frameStats
  split <;> rfl

/-! ### Claim C6 -/

/-- C6: `processFrame` called with a null input pointer or a frame whose
length differs from `frameSize` returns a failure indicator and leaves the
entire processor state (all buffers and all statistics) unchanged. -/
theorem c6_process_frame_rejects (s : PState) (input : Option (List ℤ))
    (durationUs : ℤ) (elapsedMs : ℚ)
    (h : input = none ∨
      ∃ frame, input = some frame ∧ (frame.length : ℤ) ≠ s.config.frameSize) :
    processAudioFrame s input durationUs elapsedMs = (s, false) := by
  rcases h with h | ⟨frame, rfl, hlen⟩
  · subst h; rfl
  · simp [processAudioFrame, hlen]

/-- Witness for C6 at a concrete input: a null frame is rejected and the
state of a freshly constructed processor is returned unchanged. -/
theorem c6_witness :
    processAudioFrame (initState cfg4) none 0 0 = (initState cfg4, false) :=
  c6_process_frame_rejects (initState cfg4) none 0 0 (Or.inl rfl)

/-! ### Claim C3 -/

/-- C3 counterexample: the claim says the processing-time statistic is a
cumulative average `(avg_old * (n-1) + current) / n`.  Run two successful
frames on a fresh processor with measured durations 0 us and 4000 us: after
the first frame the stat is 0 ms, so the claimed cumulative average after
the second frame (n = 2, current = 4 ms) would be `(0 * 1 + 4) / 2 = 2` ms,
but the code stores the last value, 4 ms. -/
theorem c3_counterexample :
    ((processAudioFrame (processAudioFrame (initState cfg4) (some zeroFrame4) 0 0).1
        (some zeroFrame4) 4000 0).1.stats.processingTimeMs = 4) ∧
    ((processAudioFrame (initState cfg4) (some zeroFrame4) 0 0).1.stats.processingTimeMs
        = 0) ∧
    (4 : ℚ) ≠ (0 * (2 - 1) + 4) / 2 := by
  have hlen : ((zeroFrame4.length : ℤ) = (initState cfg4).config.frameSize) := by
    simp [zeroFrame4, initState, cfg4]
  have h1 := processAudioFrame_success (initState cfg4) zeroFrame4 0 0 hlen
  have hlen2 : ((zeroFrame4.length : ℤ)
      = (processAudioFrame (initState cfg4) (some zeroFrame4) 0 0).1.config.frameSize) := by
    rw [h1]
    exact hlen
  have h2 := processAudioFrame_success
    (processAudioFrame (initState cfg4) (some zeroFrame4) 0 0).1 zeroFrame4 4000 0 hlen2
  refine ⟨?_, ?_, by norm_num⟩
  · rw [h2]
    simp [frameStats_processingTimeMs]
    norm_num
  · rw [h1]
    simp [frameStats_processingTimeMs]

/-- C3 amended: every successful `processFrame` call sets the
processing-time statistic to the current frame's measured processing time
(`durationUs / 1000` milliseconds), a last-value statistic, not a
cumulative average.  (The cumulative-average formula of the claim appears
in this repository only in `AudioInput::processAudioData`,
src/native/src/audio_input.cpp lines 213-218, outside the spectrogram
pipeline.) -/
theorem c3_amended_last_value (s : PState) (frame : List ℤ)
    (durationUs : ℤ) (elapsedMs : ℚ)
    (h : (frame.length : ℤ) = s.config.frameSize) :
    (processAudioFrame s (some frame) durationUs elapsedMs).2 = true ∧
    (processAudioFrame s (some frame) durationUs elapsedMs).1.stats.processingTimeMs
      = (durationUs : ℚ) / 1000 := by
  rw [processAudioFrame_success s frame durationUs elapsedMs h]
  exact ⟨rfl, frameStats_processingTimeMs s durationUs elapsedMs⟩

/-- Witness for C3's amended theorem at a concrete input. -/
theorem c3_witness :
    ((zeroFrame4.length : ℤ) = (initState cfg4).config.frameSize) ∧
    (processAudioFrame (initState cfg4) (some zeroFrame4) 5000 0).1.stats.processingTimeMs
      = (5000 : ℚ) / 1000 := by
  have hlen : ((zeroFrame4.length : ℤ) = (initState cfg4).config.frameSize) := by
    simp [zeroFrame4, initState, cfg4]
  exact ⟨hlen, (c3_amended_last_value (initState cfg4) zeroFrame4 5000 0 hlen).2⟩

/-! ### Claim C2 -/

/-- C2 counterexample: constructing a `MelFilterBank` with
`numFilters = 0` (which the claim says must fail with
`InvalidConfiguration`) succeeds and produces an object with zero filters:
the constructor performs no validation. -/
theorem c2_counterexample :
    constructMelFilterBank 32000 1024 0 300 8000
        ≠ Except.error ConfigError.invalidConfiguration ∧
    (mkMelFilterBank 32000 1024 0 300 8000).num_filters = 0 ∧
    (mkMelFilterBank 32000 1024 0 300 8000).filters = [] := by
  refine ⟨?_, rfl, ?_⟩
  · simp [constructMelFilterBank]
  · simp [mkMelFilterBank, melFilterList]

/-- C2 amended: `MelFilterBank` construction never fails and performs no
parameter validation: for any parameters (any non-negative filter count
included `numFilters = 0`, any frequency range, unconstrained by
`sampleRate / 2`) it produces an object whose `num_filters` is the given
count and which holds exactly that many filter rows. -/
theorem c2_amended_no_validation (sample_rate fft_size num_filters : ℤ)
    (min_freq max_freq : ℝ) (h : 0 ≤ num_filters) :
    constructMelFilterBank sample_rate fft_size num_filters min_freq max_freq
      = Except.ok (mkMelFilterBank sample_rate fft_size num_filters min_freq max_freq) ∧
    (mkMelFilterBank sample_rate fft_size num_filters min_freq max_freq).num_filters
      = num_filters ∧
    ((mkMelFilterBank sample_rate fft_size num_filters min_freq max_freq).filters.length : ℤ)
      = num_filters := by
  refine ⟨rfl, rfl, ?_⟩
  simp [mkMelFilterBank, melFilterList, Int.toNat_of_nonneg h]

/-- Witness for C2's amended theorem at a concrete input. -/
theorem c2_witness :
    (0 : ℤ) ≤ 5 ∧
    constructMelFilterBank 32000 1024 5 300 8000
      = Except.ok (mkMelFilterBank 32000 1024 5 300 8000) :=
  ⟨by norm_num, (c2_amended_no_validation 32000 1024 5 300 8000 (by norm_num)).1⟩

/-! ### Claim C8 -/

/-- C8: `MelFilterBank::apply` called with a power spectrum whose length
differs from `fftSize/2 + 1` silently returns a zero vector of length
`numFilters`, without signaling an error. -/
theorem c8_apply_silent_zero (sample_rate fft_size num_filters : ℤ)
    (min_freq max_freq : ℝ) (power_spectrum : List ℝ)
    (h : (power_spectrum.length : ℤ) ≠ fft_size / 2 + 1) :
    (mkMelFilterBank sample_rate fft_size num_filters min_freq max_freq).apply
        power_spectrum
      = List.replicate num_filters.toNat 0 := by
  simp [MelFilterBank.apply, mkMelFilterBank, h]

/-- Witness for C8 at a concrete input: a 32-entry power spectrum fed to a
1024-point bank (expected length 513) yields the zero vector of length 10. -/
theorem c8_witness :
    (mkMelFilterBank 32000 1024 10 300 8000).apply (List.replicate 32 0)
      = List.replicate (10 : ℤ).toNat 0 :=
  c8_apply_silent_zero 32000 1024 10 300 8000 (List.replicate 32 0) (by simp)

/-! ### Claim C9 -/

/-- C9: the mel-scale conversions satisfy `mel(0) == 0`, and the round trip
`melToFreq(mel(f))` equals `f` to within 0.1 Hz for every `f` in
[0, 8000] (in exact arithmetic the round trip is exact). -/
theorem c9_mel_conversions :
    mel_frequency 0 = 0 ∧
    ∀ f : ℝ, 0 ≤ f → f ≤ 8000 →
      |mel_to_frequency (mel_frequency f) - f| ≤ 1 / 10 := by
  refine ⟨mel_frequency_zero, fun f hf _ => ?_⟩
  rw [mel_roundtrip hf]
  simp

/-- Witness for C9 at a concrete input. -/
theorem c9_witness :
    (0 : ℝ) ≤ 440 ∧ (440 : ℝ) ≤ 8000 ∧
    |mel_to_frequency (mel_frequency 440) - 440| ≤ 1 / 10 :=
  ⟨by norm_num, by norm_num,
    c9_mel_conversions.2 440 (by norm_num) (by norm_num)⟩

/-! ### Claim C7 -/

/-- C7: for each of the three built-in color maps (viridis, inferno,
plasma), the color-interpolation function at input exactly 0.0 returns
exactly the RGB of the first stop, and at input exactly 1.0 exactly the
RGB of the last stop. -/
theorem c7_colormap_endpoints :
    interpolateColor 0 viridisColors = (68, 1, 84) ∧
    interpolateColor 1 viridisColors = (253, 231, 37) ∧
    interpolateColor 0 infernoColors = (0, 0, 4) ∧
    interpolateColor 1 infernoColors = (252, 255, 164) ∧
    interpolateColor 0 plasmaColors = (13, 8, 135) ∧
    interpolateColor 1 plasmaColors = (240, 249, 33) := by
  refine ⟨?_, ?_, ?_, ?_, ?_, ?_⟩ <;>
    · norm_num [interpolateColor, viridisColors, infernoColors, plasmaColors,
        List.findIdx_cons]
      norm_num [Int.floor_eq_iff]
      simp

/-! ### Lemmas about list minima/maxima and normalization (claim C1) -/

theorem getD_replicate_self {α : Type} (d : α) (m i : ℕ) :
    (List.replicate m d).getD i d = d := by
  induction m generalizing i with
  | zero => simp [List.getD]
  | succ m ih =>
    cases i with
    | zero => rfl
    | succ i => exact ih i

theorem foldl_min_le_start (xs : List ℝ) (x : ℝ) : xs.foldl min x ≤ x := by
  induction xs generalizing x with
  | nil => simp
  | cons y ys ih => exact le_trans (ih (min x y)) (min_le_left x y)

theorem foldl_min_le_mem (xs : List ℝ) (x : ℝ) {a : ℝ} (h : a ∈ xs) :
    xs.foldl min x ≤ a := by
  induction xs generalizing x with
  | nil => cases h
  | cons y ys ih =>
    rcases List.mem_cons.mp h with rfl | h
    · exact le_trans (foldl_min_le_start ys (min x a)) (min_le_right x a)
    · exact ih (min x y) h

theorem start_le_foldl_max (xs : List ℝ) (x : ℝ) : x ≤ xs.foldl max x := by
  induction xs generalizing x with
  | nil => simp
  | cons y ys ih => exact le_trans (le_max_left x y) (ih (max x y))

theorem mem_le_foldl_max (xs : List ℝ) (x : ℝ) {a : ℝ} (h : a ∈ xs) :
    a ≤ xs.foldl max x := by
  induction xs generalizing x with
  | nil => cases h
  | cons y ys ih =>
    rcases List.mem_cons.mp h with rfl | h
    · exact le_trans (le_max_right x a) (start_le_foldl_max ys (max x a))
    · exact ih (max x y) h

theorem listMin_le {xs : List ℝ} {a : ℝ} (h : a ∈ xs) : listMin xs ≤ a := by
  cases xs with
  | nil => cases h
  | cons x t =>
    rcases List.mem_cons.mp h with rfl | h
    · exact foldl_min_le_start t a
    · exact foldl_min_le_mem t x h

theorem le_listMax {xs : List ℝ} {a : ℝ} (h : a ∈ xs) : a ≤ listMax xs := by
  cases xs with
  | nil => cases h
  | cons x t =>
    rcases List.mem_cons.mp h with rfl | h
    · exact start_le_foldl_max t a
    · exact mem_le_foldl_max t x h

theorem normalizeList_length (xs : List ℝ) :
    (normalizeList xs).length = xs.length := by
  unfold normalizeList
  split <;> simp

/-- When this frame's own minimum is strictly below its maximum, the
normalized values all land in [0, 1]. -/
theorem normalizeList_bounds {xs : List ℝ} (hlt : listMin xs < listMax xs) :
    ∀ v ∈ normalizeList xs, 0 ≤ v ∧ v ≤ 1 := by
  unfold normalizeList
  rw [if_pos (by linarith)]
  intro v hv
  rw [List.mem_map] at hv
  obtain ⟨a, ha, rfl⟩ := hv
  have h1 := listMin_le ha
  have h2 := le_listMax ha
  have hd : 0 < listMax xs - listMin xs := by linarith
  constructor
  · apply div_nonneg _ (le_of_lt hd)
    linarith
  · rw [div_le_one hd]
    linarith

theorem frameMelRaw_length (s : PState) (frame : List ℤ) :
    (frameMelRaw s frame).length = s.config.numMelBands.toNat := by
  unfold frameMelRaw applyMelFilterBankList
  simp

/-! ### The pipeline on an all-zero frame (claim C1) -/

theorem logCompress_zero : logCompress 0 = -100 := by
  unfold logCompress MIN_LOG_VALUE
  rw [max_eq_right (by norm_num)]
  rw [show (1 / 10000000000 : ℝ) = ((10 : ℝ) ^ (10 : ℕ))⁻¹ by norm_num]
  rw [Real.logb_inv, Real.logb_pow, Real.logb_self_eq_one (by norm_num)]
  norm_num

theorem frameFftInput_zero :
    frameFftInput (initState cfg4) zeroFrame4 = List.replicate 4 0 := by
  unfold frameFftInput
  rw [show (initState cfg4).config.frameSize.toNat = 4 from rfl]
  rw [show List.range 4 = [0, 1, 2, 3] from rfl]
  simp [zeroFrame4, List.replicate_succ]

theorem dft_replicate_zero (n : ℕ) :
    dft (List.replicate n (0 : ℝ)) = List.replicate n 0 := by
  unfold dft
  rw [List.eq_replicate_iff]
  constructor
  · rw [List.length_map, List.length_range, List.length_replicate]
  · intro x hx
    rw [List.mem_map] at hx
    obtain ⟨k, _, rfl⟩ := hx
    apply Finset.sum_eq_zero
    intro m _
    rw [getD_replicate_self]
    simp

theorem computePowerSpectrumList_zero (n : ℕ) (fs : ℤ) :
    computePowerSpectrumList (List.replicate n (0 : ℂ)) fs
      = List.replicate (fs / 2 + 1).toNat 0 := by
  unfold computePowerSpectrumList
  rw [List.eq_replicate_iff]
  constructor
  · simp
  · intro x hx
    rw [List.mem_map] at hx
    obtain ⟨i, _, rfl⟩ := hx
    rw [getD_replicate_self]
    simp

theorem applyMelFilterBankList_zero (m : ℕ) (fb : List (List ℝ)) (nb fs : ℤ) :
    applyMelFilterBankList (List.replicate m 0) fb nb fs
      = List.replicate nb.toNat 0 := by
  unfold applyMelFilterBankList
  rw [List.eq_replicate_iff]
  refine ⟨by simp, ?_⟩
  intro x hx
  rw [List.mem_map] at hx
  obtain ⟨band, _, rfl⟩ := hx
  apply Finset.sum_eq_zero
  intro bin _
  rw [getD_replicate_self]
  simp

theorem convertToLogScale_zero2 :
    convertToLogScale (List.replicate 2 0) = [-100, -100] := by
  unfold convertToLogScale
  rw [show List.replicate 2 (0 : ℝ) = [0, 0] from rfl]
  rw [show ([0, 0] : List ℝ).map logCompress = [-100, -100] by
    simp [logCompress_zero]]
  simp [normalizeList, listMin, listMax]

/-! ### Claim C1 -/

/-- C1 counterexample: an all-zero frame (accepted: its length equals
`frameSize`) yields raw band energies all 0, log values all -100, and the
code skips normalization because max - min = 0; `getMelSpectrum` then
returns [-100, -100], whose entries are not in [0, 1]. -/
theorem c1_counterexample :
    getMelSpectrum (processAudioFrame (initState cfg4) (some zeroFrame4) 0 0).1
      = [-100, -100] ∧
    ¬ (∀ v ∈ getMelSpectrum (processAudioFrame (initState cfg4) (some zeroFrame4) 0 0).1,
        0 ≤ v ∧ v ≤ 1) := by
  have hlen : ((zeroFrame4.length : ℤ) = (initState cfg4).config.frameSize) := by
    simp [zeroFrame4, initState, cfg4]
  have hmain : getMelSpectrum (processAudioFrame (initState cfg4) (some zeroFrame4) 0 0).1
      = [-100, -100] := by
    rw [processAudioFrame_success _ _ _ _ hlen]
    show frameMelSpectrum (initState cfg4) zeroFrame4 = _
    unfold frameMelSpectrum frameMelRaw framePower
    rw [frameFftInput_zero, dft_replicate_zero]
    rw [show (initState cfg4).config.frameSize = 4 from rfl]
    rw [computePowerSpectrumList_zero]
    rw [show ((4 : ℤ) / 2 + 1).toNat = 3 from rfl]
    rw [applyMelFilterBankList_zero]
    rw [show (initState cfg4).config.numMelBands.toNat = 2 from rfl]
    exact convertToLogScale_zero2
  refine ⟨hmain, fun hall => ?_⟩
  have h := hall (-100) (by rw [hmain]; simp)
  linarith [h.1]

/-- C1 amended: for every accepted frame the mel spectrum returned by
`getMelSpectrum` has exactly `numBands` values and equals the band energies
log-compressed (`10*log10(max(energy, 1e-10))`) and then min/max-normalized
with this frame's own minimum and maximum, *except* that the normalization
is skipped when this frame's log-compressed values are all equal
(max - min = 0); whenever the frame's own minimum is strictly below its
maximum, every value lies in [0, 1]. -/
theorem c1_amended_mel_spectrum (s : PState) (frame : List ℤ) (durationUs : ℤ)
    (elapsedMs : ℚ) (h : (frame.length : ℤ) = s.config.frameSize) :
    (processAudioFrame s (some frame) durationUs elapsedMs).2 = true ∧
    getMelSpectrum (processAudioFrame s (some frame) durationUs elapsedMs).1
      = normalizeList ((frameMelRaw s frame).map logCompress) ∧
    (getMelSpectrum (processAudioFrame s (some frame) durationUs elapsedMs).1).length
      = s.config.numMelBands.toNat ∧
    (listMin ((frameMelRaw s frame).map logCompress)
        < listMax ((frameMelRaw s frame).map logCompress) →
      ∀ v ∈ getMelSpectrum (processAudioFrame s (some frame) durationUs elapsedMs).1,
        0 ≤ v ∧ v ≤ 1) := by
  rw [processAudioFrame_success _ _ _ _ h]
  refine ⟨rfl, rfl, ?_, ?_⟩
  · show (frameMelSpectrum s frame).length = _
    unfold frameMelSpectrum convertToLogScale
    rw [normalizeList_length, List.length_map, frameMelRaw_length]
  · intro hlt
    exact normalizeList_bounds hlt

/-- Witness for C1's amended theorem at a concrete input. -/
theorem c1_witness :
    ((zeroFrame4.length : ℤ) = (initState cfg4).config.frameSize) ∧
    (getMelSpectrum (processAudioFrame (initState cfg4) (some zeroFrame4) 7 0).1).length
      = (initState cfg4).config.numMelBands.toNat := by
  have hlen : ((zeroFrame4.length : ℤ) = (initState cfg4).config.frameSize) := by
    simp [zeroFrame4, initState, cfg4]
  exact ⟨hlen, (c1_amended_mel_spectrum (initState cfg4) zeroFrame4 7 0 hlen).2.2.1⟩

/-! ### Mel-point and bin computations for concrete filter banks (claim C5) -/

theorem mel_to_frequency_zero : mel_to_frequency 0 = 0 := by
  unfold mel_to_frequency
  norm_num

theorem m2f_pt0 : mel_to_frequency (melPoint 1 0 5600 0) = 0 := by
  have h : melPoint 1 0 5600 0 = 0 := by
    unfold melPoint
    rw [mel_frequency_zero]
    norm_num
  rw [h, mel_to_frequency_zero]

theorem mel_frequency_5600 : mel_frequency 5600 = 2595 * Real.logb 10 9 := by
  unfold mel_frequency
  norm_num

theorem m2f_pt1 : mel_to_frequency (melPoint 1 0 5600 1) = 1400 := by
  have hpt : melPoint 1 0 5600 1 = 2595 * Real.logb 10 9 / 2 := by
    unfold melPoint
    rw [mel_frequency_zero, mel_frequency_5600]
    push_cast
    ring
  rw [hpt]
  unfold mel_to_frequency
  rw [show 2595 * Real.logb 10 9 / 2 / 2595 = Real.logb 10 9 * (2 : ℝ)⁻¹ by ring]
  rw [Real.rpow_mul (by norm_num : (0 : ℝ) ≤ 10),
    Real.rpow_logb (by norm_num) (by norm_num) (by norm_num : (0 : ℝ) < 9)]
  have h3 : (9 : ℝ) ^ ((2 : ℝ)⁻¹) = 3 := by
    rw [show (9 : ℝ) = 3 ^ (2 : ℕ) by norm_num, ← Real.rpow_natCast 3 2,
      ← Real.rpow_mul (by norm_num : (0 : ℝ) ≤ 3)]
    norm_num
  rw [h3]
  norm_num

theorem m2f_pt2 : mel_to_frequency (melPoint 1 0 5600 2) = 5600 := by
  have hpt : melPoint 1 0 5600 2 = mel_frequency 5600 := by
    unfold melPoint
    rw [mel_frequency_zero]
    push_cast
    ring
  rw [hpt, mel_roundtrip (by norm_num)]

theorem freqToBin_zero (sr fs : ℤ) : freqToBin sr fs 0 = 0 := by
  unfold freqToBin roundToInt
  rw [if_pos (by norm_num)]
  norm_num [Int.floor_eq_iff]

theorem freqToBin_1400_4 : freqToBin 32000 4 1400 = 0 := by
  unfold freqToBin roundToInt
  rw [if_pos (by norm_num)]
  norm_num [Int.floor_eq_iff]

theorem freqToBin_5600_4 : freqToBin 32000 4 5600 = 1 := by
  unfold freqToBin roundToInt
  rw [if_pos (by norm_num)]
  norm_num [Int.floor_eq_iff]

theorem freqToBin_1400_32 : freqToBin 32000 32 1400 = 1 := by
  unfold freqToBin roundToInt
  rw [if_pos (by norm_num)]
  norm_num [Int.floor_eq_iff]

theorem freqToBin_5600_32 : freqToBin 32000 32 5600 = 6 := by
  unfold freqToBin roundToInt
  rw [if_pos (by norm_num)]
  norm_num [Int.floor_eq_iff]

/-- Reading one bin of a constructed triangular filter gives the per-bin
weight at that bin. -/
theorem createTriangularFilter_getD (sr fs : ℤ) (c l h : ℝ) (b : ℤ)
    (hb0 : 0 ≤ b) (hb : b ≤ fs / 2) :
    (createTriangularFilter sr fs c l h).getD b.toNat 0
      = triWeight (clampBin fs (freqToBin sr fs l))
          (clampBin fs (freqToBin sr fs c))
          (clampBin fs (freqToBin sr fs h)) b := by
  unfold createTriangularFilter
  have hlt : b.toNat < (fs / 2 + 1).toNat := by omega
  rw [List.getD_eq_getElem?_getD, List.getElem?_map, List.getElem?_range hlt]
  simp [Int.toNat_of_nonneg hb0]

theorem clampBin_nonneg (fs b : ℤ) : 0 ≤ clampBin fs b := le_max_left 0 _

theorem clampBin_le (fs b : ℤ) (h : 0 ≤ fs / 2) : clampBin fs b ≤ fs / 2 := by
  unfold clampBin
  omega

/-- A row of the constructed `MelFilterBank` is the triangular filter of
its three mel points. -/
theorem mkMelFilterBank_row (sr fs nf : ℤ) (mn mx : ℝ) (i : ℕ)
    (hi : (i : ℤ) < nf) :
    (mkMelFilterBank sr fs nf mn mx).getFilter (i : ℤ)
      = createTriangularFilter sr fs
          (mel_to_frequency (melPoint nf mn mx (i + 1)))
          (mel_to_frequency (melPoint nf mn mx i))
          (mel_to_frequency (melPoint nf mn mx (i + 2))) := by
  unfold MelFilterBank.getFilter mkMelFilterBank
  simp only
  rw [if_neg (by push_neg; constructor <;> omega)]
  unfold melFilterList
  have hlt : (i : ℤ).toNat < nf.toNat := by omega
  rw [List.getD_eq_getElem?_getD, List.getElem?_map, List.getElem?_range hlt]
  simp

/-! ### Claim C5 -/

/-- C5 counterexample: for the valid configuration sampleRate 32000,
fftSize 4, one filter, range [0 Hz, 5600 Hz] (5600 <= sampleRate/2), the
single row's mel points are 0, 1400, 5600 Hz, whose rounded bins are 0, 0
and 1: the center bin coincides with the low-edge bin, the rising ramp is
skipped, and the row is entirely zero - in particular the weight at the
center bin is 0, not exactly 1 as the claim requires. -/
theorem c5_counterexample :
    clampBin 4 (freqToBin 32000 4 (mel_to_frequency (melPoint 1 0 5600 1))) = 0 ∧
    (mkMelFilterBank 32000 4 1 0 5600).getFilter 0 = [0, 0, 0] ∧
    ((mkMelFilterBank 32000 4 1 0 5600).getFilter 0).getD 0 0 = 0 ∧
    ((0 : ℝ) ≠ 1) := by
  have hc : clampBin 4 (freqToBin 32000 4 (mel_to_frequency (melPoint 1 0 5600 1))) = 0 := by
    rw [m2f_pt1, freqToBin_1400_4]
    decide
  have hrow : (mkMelFilterBank 32000 4 1 0 5600).getFilter 0 = [0, 0, 0] := by
    have h0 := mkMelFilterBank_row 32000 4 1 0 5600 0 (by norm_num)
    rw [show ((0 : ℕ) : ℤ) = 0 from rfl] at h0
    rw [h0]
    unfold createTriangularFilter
    rw [m2f_pt0, m2f_pt1, m2f_pt2, freqToBin_zero, freqToBin_1400_4, freqToBin_5600_4]
    rw [show clampBin 4 0 = 0 from by decide, show clampBin 4 1 = 1 from by decide]
    rw [show ((4 : ℤ) / 2 + 1).toNat = 3 from rfl, show List.range 3 = [0, 1, 2] from rfl]
    unfold triWeight
    norm_num
  refine ⟨hc, hrow, ?_, by norm_num⟩
  rw [hrow]
  rfl

/-- C5 amended: every row of the constructed mel filter-bank matrix whose
three edge bins (the mel-point edge frequencies rounded to bins and
clamped) are strictly increasing is a triangular weight profile: weight
`(b - low)/(center - low)` rising from 0 at the low-edge bin to exactly 1
at the center bin, weight `(high - b)/(high - center)` falling back to 0 at
the high-edge bin, and 0 at every other bin.  When the rounded center bin
coincides with the low-edge bin (possible for valid configurations, see the
counterexample), the rising ramp - including the weight 1 at the center -
is absent. -/
theorem c5_amended_triangular (sr fs nf : ℤ) (mn mx : ℝ) (i : ℕ)
    (hfs : 0 < fs) (hi : (i : ℤ) < nf)
    (lowB cenB highB : ℤ)
    (hl : lowB = clampBin fs (freqToBin sr fs (mel_to_frequency (melPoint nf mn mx i))))
    (hc : cenB = clampBin fs (freqToBin sr fs (mel_to_frequency (melPoint nf mn mx (i + 1)))))
    (hh : highB = clampBin fs (freqToBin sr fs (mel_to_frequency (melPoint nf mn mx (i + 2)))))
    (h1 : lowB < cenB) (h2 : cenB < highB) :
    ((mkMelFilterBank sr fs nf mn mx).getFilter (i : ℤ)).length = (fs / 2 + 1).toNat ∧
    ((mkMelFilterBank sr fs nf mn mx).getFilter (i : ℤ)).getD cenB.toNat 0 = 1 ∧
    ((mkMelFilterBank sr fs nf mn mx).getFilter (i : ℤ)).getD lowB.toNat 0 = 0 ∧
    ((mkMelFilterBank sr fs nf mn mx).getFilter (i : ℤ)).getD highB.toNat 0 = 0 ∧
    (∀ b : ℤ, lowB ≤ b → b ≤ cenB →
      ((mkMelFilterBank sr fs nf mn mx).getFilter (i : ℤ)).getD b.toNat 0
        = ((b - lowB : ℤ) : ℝ) / ((cenB - lowB : ℤ) : ℝ)) ∧
    (∀ b : ℤ, cenB < b → b ≤ highB →
      ((mkMelFilterBank sr fs nf mn mx).getFilter (i : ℤ)).getD b.toNat 0
        = ((highB - b : ℤ) : ℝ) / ((highB - cenB : ℤ) : ℝ)) ∧
    (∀ b : ℤ, 0 ≤ b → b ≤ fs / 2 → (b < lowB ∨ highB < b) →
      ((mkMelFilterBank sr fs nf mn mx).getFilter (i : ℤ)).getD b.toNat 0 = 0) := by
  have hfs2 : (0 : ℤ) ≤ fs / 2 := by omega
  have hrow := mkMelFilterBank_row sr fs nf mn mx i hi
  have hlow0 : 0 ≤ lowB := hl ▸ clampBin_nonneg fs _
  have hhighB : highB ≤ fs / 2 := hh ▸ clampBin_le fs _ hfs2
  have hgets : ∀ b : ℤ, 0 ≤ b → b ≤ fs / 2 →
      ((mkMelFilterBank sr fs nf mn mx).getFilter (i : ℤ)).getD b.toNat 0
        = triWeight lowB cenB highB b := by
    intro b hb0 hb
    rw [hrow, createTriangularFilter_getD sr fs _ _ _ b hb0 hb, ← hl, ← hc, ← hh]
  have hramp : ∀ b : ℤ, lowB ≤ b → b ≤ cenB →
      ((mkMelFilterBank sr fs nf mn mx).getFilter (i : ℤ)).getD b.toNat 0
        = ((b - lowB : ℤ) : ℝ) / ((cenB - lowB : ℤ) : ℝ) := by
    intro b hbl hbc
    rw [hgets b (le_trans hlow0 hbl) (by omega)]
    unfold triWeight
    rw [if_pos ⟨h1, hbl, hbc⟩]
  have hfall : ∀ b : ℤ, cenB < b → b ≤ highB →
      ((mkMelFilterBank sr fs nf mn mx).getFilter (i : ℤ)).getD b.toNat 0
        = ((highB - b : ℤ) : ℝ) / ((highB - cenB : ℤ) : ℝ) := by
    intro b hbc hbh
    rw [hgets b (by omega) (by omega)]
    unfold triWeight
    rw [if_neg (by omega), if_pos ⟨h2, hbc, hbh⟩]
  refine ⟨?_, ?_, ?_, ?_, hramp, hfall, ?_⟩
  · rw [hrow]
    unfold createTriangularFilter
    simp
  · rw [hramp cenB (le_of_lt h1) le_rfl]
    have : ((cenB - lowB : ℤ) : ℝ) ≠ 0 := by
      rw [Int.cast_ne_zero]
      omega
    exact div_self this
  · rw [hramp lowB le_rfl (le_of_lt h1)]
    simp
  · rw [hfall highB h2 le_rfl]
    simp
  · intro b hb0 hb hout
    rw [hgets b hb0 hb]
    unfold triWeight
    rw [if_neg (by omega), if_neg (by omega)]

/-- Witness for C5's amended theorem: for sampleRate 32000, fftSize 32, one
filter over [0, 5600] the edge bins are 0 < 1 < 6 and the row peaks at
exactly 1 at bin 1. -/
theorem c5_witness :
    ((mkMelFilterBank 32000 32 1 0 5600).getFilter 0).getD (1 : ℤ).toNat 0 = 1 := by
  have hl : (0 : ℤ) = clampBin 32 (freqToBin 32000 32 (mel_to_frequency (melPoint 1 0 5600 0))) := by
    rw [m2f_pt0, freqToBin_zero]
    decide
  have hc : (1 : ℤ) = clampBin 32 (freqToBin 32000 32 (mel_to_frequency (melPoint 1 0 5600 (0 + 1)))) := by
    rw [show (0 + 1 : ℕ) = 1 from rfl, m2f_pt1, freqToBin_1400_32]
    decide
  have hh : (6 : ℤ) = clampBin 32 (freqToBin 32000 32 (mel_to_frequency (melPoint 1 0 5600 (0 + 2)))) := by
    rw [show (0 + 2 : ℕ) = 2 from rfl, m2f_pt2, freqToBin_5600_32]
    decide
  have h := c5_amended_triangular 32000 32 1 0 5600 0 (by norm_num) (by norm_num)
    0 1 6 hl hc hh (by norm_num) (by norm_num)
  exact h.2.1

/-! ### Lemmas about the texture renderer's ring buffer (claims C4 and C10) -/

theorem updateColumn_success (s : TRState) (d : List ℚ)
    (h : d.length = s.numMelBands) :
    updateColumn s d =
      ({ s with
          ringBuffer := writeRingColumn s.ringBuffer s.currentColumn s.numMelBands
            (colorizeColumn d s.minValue s.maxValue
              (s.colorMaps.getD s.currentColorMap [])),
          mockTexture := mockWrite s.mockTexture
            (writeRingColumn s.ringBuffer s.currentColumn s.numMelBands
              (colorizeColumn d s.minValue s.maxValue
                (s.colorMaps.getD s.currentColorMap [])))
            s.currentColumn s.width s.height s.numMelBands,
          currentColumn := (s.currentColumn + 1) % s.width }, true) := by
  unfold updateColumn
  rw [if_neg (by omega)]

theorem updateColumn_preserves (s : TRState) (d : List ℚ) :
    ((updateColumn s d).1).width = s.width ∧
    ((updateColumn s d).1).height = s.height ∧
    ((updateColumn s d).1).numMelBands = s.numMelBands ∧
    ((updateColumn s d).1).minValue = s.minValue ∧
    ((updateColumn s d).1).maxValue = s.maxValue ∧
    ((updateColumn s d).1).currentColorMap = s.currentColorMap ∧
    ((updateColumn s d).1).colorMaps = s.colorMaps := by
  unfold updateColumn
  split <;> exact ⟨rfl, rfl, rfl, rfl, rfl, rfl, rfl⟩

theorem runUpdates_preserves (s0 : TRState) (ds : List (List ℚ)) :
    (runUpdates s0 ds).width = s0.width ∧
    (runUpdates s0 ds).height = s0.height ∧
    (runUpdates s0 ds).numMelBands = s0.numMelBands ∧
    (runUpdates s0 ds).minValue = s0.minValue ∧
    (runUpdates s0 ds).maxValue = s0.maxValue ∧
    (runUpdates s0 ds).currentColorMap = s0.currentColorMap ∧
    (runUpdates s0 ds).colorMaps = s0.colorMaps := by
  induction ds generalizing s0 with
  | nil => exact ⟨rfl, rfl, rfl, rfl, rfl, rfl, rfl⟩
  | cons d ds ih =>
    have h1 := updateColumn_preserves s0 d
    have h2 := ih (updateColumn s0 d).1
    have hrw : runUpdates s0 (d :: ds) = runUpdates (updateColumn s0 d).1 ds := rfl
    rw [hrw]
    exact ⟨h2.1.trans h1.1, h2.2.1.trans h1.2.1, h2.2.2.1.trans h1.2.2.1,
      h2.2.2.2.1.trans h1.2.2.2.1, h2.2.2.2.2.1.trans h1.2.2.2.2.1,
      h2.2.2.2.2.2.1.trans h1.2.2.2.2.2.1, h2.2.2.2.2.2.2.trans h1.2.2.2.2.2.2⟩

theorem runUpdates_append_singleton (s0 : TRState) (ds : List (List ℚ))
    (d : List ℚ) :
    runUpdates s0 (ds ++ [d]) = (updateColumn (runUpdates s0 ds) d).1 := by
  unfold runUpdates
  rw [List.foldl_append]
  rfl

theorem writeRingColumn_in (ring : ℕ → ℕ) (cur nb : ℕ) (col : ℕ → ℕ)
    (off : ℕ) (hoff : off < 4 * nb) :
    writeRingColumn ring cur nb col (4 * nb * cur + off) = col off := by
  unfold writeRingColumn
  rw [if_pos ⟨Nat.le_add_right _ _, by rw [Nat.mul_succ]; omega⟩]
  congr 1
  omega

theorem writeRingColumn_out (ring : ℕ → ℕ) (cur nb : ℕ) (col : ℕ → ℕ)
    (j : ℕ) (h : j < 4 * nb * cur ∨ 4 * nb * (cur + 1) ≤ j) :
    writeRingColumn ring cur nb col j = ring j := by
  unfold writeRingColumn
  rw [if_neg (by omega)]

theorem slot_index_notin (nb cur slot off : ℕ) (hoff : off < 4 * nb)
    (hne : slot ≠ cur) :
    4 * nb * slot + off < 4 * nb * cur ∨ 4 * nb * (cur + 1) ≤ 4 * nb * slot + off := by
  rcases Nat.lt_or_ge slot cur with h | h
  · left
    calc 4 * nb * slot + off < 4 * nb * slot + 4 * nb := by omega
      _ = 4 * nb * (slot + 1) := by ring
      _ ≤ 4 * nb * cur := Nat.mul_le_mul_left _ h
  · right
    have hlt : cur + 1 ≤ slot := by omega
    calc 4 * nb * (cur + 1) ≤ 4 * nb * slot := Nat.mul_le_mul_left _ hlt
      _ ≤ 4 * nb * slot + off := Nat.le_add_right _ _

theorem succ_mod_of_ne (a W : ℕ) (hW : 0 < W) (h : a % W ≠ W - 1) :
    (a + 1) % W = a % W + 1 := by
  rcases Nat.eq_or_lt_of_le hW with h1 | h1
  · exfalso
    apply h
    rw [← h1]
    simp [Nat.mod_one]
  · have hr : a % W < W := Nat.mod_lt a hW
    have hlt : a % W + 1 < W := by omega
    conv_lhs => rw [Nat.add_mod, Nat.mod_eq_of_lt h1]
    rw [Nat.mod_eq_of_lt hlt]

theorem sub_self_mod_mod (n W : ℕ) : (n - n % W) % W = 0 := by
  have h := Nat.div_add_mod n W
  have hsub : n - n % W = W * (n / W) := by omega
  rw [hsub, Nat.mul_mod_right]

theorem mod_eq_of_dvd_sub (n slot W : ℕ) (hslot : slot < W)
    (hle : slot ≤ n) (hdvd : W ∣ n - slot) : n % W = slot := by
  obtain ⟨c, hc⟩ := hdvd
  have hn : n = slot + W * c := by omega
  rw [hn, Nat.add_mul_mod_self_left, Nat.mod_eq_of_lt hslot]

theorem idx_mod_key (W x a : ℕ) (hW : 0 < W) (hx : x < W) (ha : W ≤ a + 1) :
    (a - (a + x) % W) % W = (W - x) % W := by
  have hqr := Nat.div_add_mod (a + x) W
  have hr : (a + x) % W < W := Nat.mod_lt _ hW
  rcases Nat.eq_zero_or_pos ((a + x) / W) with hq | hq
  · rw [hq, Nat.mul_zero] at hqr
    have hx0 : x = 0 := by omega
    have haa : a = (a + x) % W := by omega
    rw [← haa, Nat.sub_self, Nat.zero_mod, hx0, Nat.sub_zero, Nat.mod_self]
  · obtain ⟨q, hq1⟩ := Nat.exists_eq_add_of_le hq
    have hmul : W * ((a + x) / W) = W + W * q := by
      rw [hq1]
      ring
    have hsub : a - (a + x) % W = (W - x) + W * q := by omega
    rw [hsub, Nat.add_mul_mod_self_left]

theorem getD_append_left {α : Type} (l1 l2 : List α) (i : ℕ) (d : α)
    (h : i < l1.length) : (l1 ++ l2).getD i d = l1.getD i d := by
  rw [List.getD_eq_getElem?_getD, List.getD_eq_getElem?_getD,
    List.getElem?_append, if_pos h]

theorem getD_concat_self {α : Type} (l : List α) (a : α) (d : α) :
    (l ++ [a]).getD l.length d = a := by
  rw [List.getD_eq_getElem?_getD]
  simp

theorem runUpdates_nb (W H nb : ℕ) (ds : List (List ℚ)) :
    (runUpdates (mkTextureRenderer W H nb) ds).numMelBands = nb :=
  (runUpdates_preserves _ _).2.2.1

theorem runUpdates_width (W H nb : ℕ) (ds : List (List ℚ)) :
    (runUpdates (mkTextureRenderer W H nb) ds).width = W :=
  (runUpdates_preserves _ _).1

theorem runUpdates_height (W H nb : ℕ) (ds : List (List ℚ)) :
    (runUpdates (mkTextureRenderer W H nb) ds).height = H :=
  (runUpdates_preserves _ _).2.1

theorem runUpdates_minValue (W H nb : ℕ) (ds : List (List ℚ)) :
    (runUpdates (mkTextureRenderer W H nb) ds).minValue = 0 :=
  (runUpdates_preserves _ _).2.2.2.1

theorem runUpdates_maxValue (W H nb : ℕ) (ds : List (List ℚ)) :
    (runUpdates (mkTextureRenderer W H nb) ds).maxValue = 1 :=
  (runUpdates_preserves _ _).2.2.2.2.1

theorem runUpdates_cmap (W H nb : ℕ) (ds : List (List ℚ)) :
    (runUpdates (mkTextureRenderer W H nb) ds).colorMaps.getD
      (runUpdates (mkTextureRenderer W H nb) ds).currentColorMap []
      = viridisColors := by
  rw [(runUpdates_preserves _ _).2.2.2.2.2.2, (runUpdates_preserves _ _).2.2.2.2.2.1]
  rfl

theorem runUpdates_cur (W H nb : ℕ) (hW : 0 < W) (ds : List (List ℚ))
    (h : ∀ d ∈ ds, d.length = nb) :
    (runUpdates (mkTextureRenderer W H nb) ds).currentColumn = ds.length % W := by
  induction ds using List.reverseRecOn with
  | nil => rfl
  | append_singleton ds d ih =>
    have hall : ∀ d' ∈ ds, d'.length = nb := fun d' hd' =>
      h d' (List.mem_append_left _ hd')
    have hd : d.length = nb := h d (by simp)
    rw [runUpdates_append_singleton,
      updateColumn_success _ d (hd.trans (runUpdates_nb W H nb ds).symm)]
    dsimp only
    rw [ih hall, runUpdates_width W H nb ds, Nat.mod_add_mod]
    simp

/-- Ring-buffer contents after a run of successful column writes: slot
`slot` holds the color-mapped bytes of the chronologically last write that
landed on it (write index `n - 1 - ((n - 1 - slot) mod width)`), and slots
never written (possible only while fewer than `width` writes have
happened) still hold the constructor's zero fill. -/
theorem runUpdates_ring (W H nb : ℕ) (hW : 0 < W) (ds : List (List ℚ))
    (h : ∀ d ∈ ds, d.length = nb) (slot : ℕ) (hslot : slot < W)
    (off : ℕ) (hoff : off < 4 * nb) :
    (runUpdates (mkTextureRenderer W H nb) ds).ringBuffer (4 * nb * slot + off)
      = if slot < ds.length then
          colorizeColumn (ds.getD (ds.length - 1 - ((ds.length - 1 - slot) % W)) [])
            0 1 viridisColors off
        else 0 := by
  induction ds using List.reverseRecOn with
  | nil =>
    rw [if_neg (by simp)]
    rfl
  | append_singleton ds d ih =>
    have hall : ∀ d' ∈ ds, d'.length = nb := fun d' hd' =>
      h d' (List.mem_append_left _ hd')
    have hd : d.length = nb := h d (by simp)
    rw [runUpdates_append_singleton,
      updateColumn_success _ d (hd.trans (runUpdates_nb W H nb ds).symm)]
    dsimp only
    rw [runUpdates_nb W H nb ds, runUpdates_minValue W H nb ds,
      runUpdates_maxValue W H nb ds, runUpdates_cmap W H nb ds,
      runUpdates_cur W H nb hW ds hall,
      show (ds ++ [d]).length = ds.length + 1 by simp]
    by_cases hcase : slot = ds.length % W
    · subst hcase
      rw [writeRingColumn_in _ _ _ _ off hoff]
      rw [if_pos (by have := Nat.mod_le ds.length W; omega)]
      have hidx : ds.length + 1 - 1 - ((ds.length + 1 - 1 - ds.length % W) % W)
          = ds.length := by
        have h0 := sub_self_mod_mod ds.length W
        simp only [Nat.add_sub_cancel]
        omega
      rw [hidx, getD_concat_self]
    · rw [writeRingColumn_out _ _ _ _ _
        (slot_index_notin nb (ds.length % W) slot off hoff hcase)]
      rw [ih hall]
      by_cases hlt : slot < ds.length
      · rw [if_pos hlt, if_pos (by omega)]
        have hmodne : (ds.length - 1 - slot) % W ≠ W - 1 := by
          intro hmod
          apply hcase
          refine (mod_eq_of_dvd_sub ds.length slot W hslot (by omega) ?_).symm
          have hdm := Nat.div_add_mod (ds.length - 1 - slot) W
          refine ⟨(ds.length - 1 - slot) / W + 1, ?_⟩
          have hmul : W * ((ds.length - 1 - slot) / W + 1)
              = W * ((ds.length - 1 - slot) / W) + W := by ring
          omega
        have hsucc : (ds.length - 1 - slot + 1) % W = (ds.length - 1 - slot) % W + 1 :=
          succ_mod_of_ne _ W hW hmodne
        have hmle : (ds.length - 1 - slot) % W ≤ ds.length - 1 - slot :=
          Nat.mod_le _ _
        have hidx : ds.length + 1 - 1 - ((ds.length + 1 - 1 - slot) % W)
            = ds.length - 1 - ((ds.length - 1 - slot) % W) := by
          have : ds.length + 1 - 1 - slot = ds.length - 1 - slot + 1 := by omega
          rw [this, hsucc]
          omega
        rw [hidx, getD_append_left]
        omega
      · have hne2 : slot ≠ ds.length := by
          intro he
          apply hcase
          rw [he, Nat.mod_eq_of_lt (by omega)]
        rw [if_neg hlt, if_neg (by omega)]

/-! ### Claim C4 -/

/-- C4 counterexample: width 2, height 1, one band; write the column [0]
(mapped to the first viridis stop, red 68) and then the column [1] (mapped
to the last stop, red 253).  The claim says the rebuilt raster iterates
chronologically starting at ring column `(currentColumn - width + 1) mod
width`, i.e. raster column 0 shows the older write (red 68); the code's
rebuild (`organizedData`, with `currentColumn` still at the just-written
column) starts one column earlier, so raster column 0 holds the newest
write (red 253). -/
theorem c4_counterexample :
    organizeByte (runUpdates (mkTextureRenderer 2 1 1) [[0], [1]]).ringBuffer
        ((2 - 1) % 2) 2 1 1 0 0 0 = 253 ∧
    chronoRasterSpec [[0], [1]] 2 1 1 0 0 0 = 68 ∧
    organizeByte (runUpdates (mkTextureRenderer 2 1 1) [[0], [1]]).ringBuffer
        ((2 - 1) % 2) 2 1 1 0 0 0
      ≠ chronoRasterSpec [[0], [1]] 2 1 1 0 0 0 := by
  have h1 : organizeByte (runUpdates (mkTextureRenderer 2 1 1) [[0], [1]]).ringBuffer
      ((2 - 1) % 2) 2 1 1 0 0 0 = 253 := by
    norm_num [runUpdates, updateColumn, mkTextureRenderer, writeRingColumn,
      mockWrite, organizeByte, colorizeColumn, clampNorm, interpolateColor,
      viridisColors, List.findIdx_cons]
    norm_num [Int.floor_eq_iff]
    simp
  have h2 : chronoRasterSpec [[0], [1]] 2 1 1 0 0 0 = 68 := by
    norm_num [chronoRasterSpec, colorizeColumn, clampNorm, interpolateColor,
      viridisColors, List.findIdx_cons]
    norm_num [Int.floor_eq_iff]
    simp
  refine ⟨h1, h2, ?_⟩
  rw [h1, h2]
  norm_num

/-- C4 amended: after `W + k` successful column writes (`W` = width, any
`k >= 0`) the rebuilt raster (the non-mock `organizedData` computation, run
with `currentColumn` still at the just-written ring column) holds at raster
column `x`, destination row `height-1-y`, the color-mapped bytes of write
number `n - 1 - ((W - x) mod W)` of the sequence (`n = W + k`): raster
column 0 holds the *newest* write and columns `1..W-1` hold the previous
`W-1` writes oldest-to-newest - i.e. exactly the most recent `W` writes,
rotated by one column from the chronological order the claim states.  Band
selection is `min (y*numBands/height) (numBands-1)` with vertical flip, as
claimed.  The cursor after the run is `(W + k) mod W`. -/
theorem c4_amended_raster (W H nb k : ℕ) (hW : 0 < W) (hnb : 0 < nb)
    (ds : List (List ℚ)) (hlen : ds.length = W + k)
    (h : ∀ d ∈ ds, d.length = nb) (x y c : ℕ) (hx : x < W) (hc : c < 4) :
    organizeByte (runUpdates (mkTextureRenderer W H nb) ds).ringBuffer
        ((ds.length - 1) % W) W H nb x y c
      = colorizeColumn (ds.getD (ds.length - 1 - ((W - x) % W)) []) 0 1
          viridisColors (4 * min (y * nb / H) (nb - 1) + c) ∧
    (runUpdates (mkTextureRenderer W H nb) ds).currentColumn = (W + k) % W := by
  constructor
  · unfold organizeByte
    rw [Nat.mod_add_mod, add_assoc]
    have hb : min (y * nb / H) (nb - 1) ≤ nb - 1 := min_le_right _ _
    have hoff : 4 * min (y * nb / H) (nb - 1) + c < 4 * nb := by omega
    have hslot : (ds.length - 1 + x) % W < W := Nat.mod_lt _ hW
    rw [runUpdates_ring W H nb hW ds h _ hslot _ hoff]
    rw [if_pos (by omega)]
    rw [idx_mod_key W x (ds.length - 1) hW hx (by omega)]
  · rw [runUpdates_cur W H nb hW ds h, hlen]

/-- Witness for C4's amended theorem at a concrete input (the run of the
counterexample, raster column 1). -/
theorem c4_witness :
    organizeByte (runUpdates (mkTextureRenderer 2 1 1) [[0], [1]]).ringBuffer
        (([[0], [1]].length - 1) % 2) 2 1 1 1 0 0
      = colorizeColumn ([[0], [1]].getD ([[0], [1]].length - 1 - ((2 - 1) % 2)) [])
          0 1 viridisColors (4 * min (0 * 1 / 1) (1 - 1) + 0) :=
  (c4_amended_raster 2 1 1 0 (by norm_num) (by norm_num) [[0], [1]] (by simp)
    (by intro d hd; fin_cases hd <;> rfl) 1 0 0
    (by norm_num) (by norm_num)).1

/-! ### Claim C10 -/

theorem mkTextureRenderer_alphaOk (W H nb : ℕ) :
    AlphaOk (mkTextureRenderer W H nb) := by
  intro j hj4 hjlt
  show (if j < 4 * (W * H) ∧ j % 4 = 3 then 255 else 0) = 255
  rw [if_pos ⟨hjlt, hj4⟩]

theorem updateColumn_alphaOk (s : TRState) (d : List ℚ)
    (hnb : 0 < s.numMelBands) (hA : AlphaOk s) :
    AlphaOk (updateColumn s d).1 := by
  unfold updateColumn
  split
  · exact hA
  · intro j hj4 hjlt
    show mockWrite s.mockTexture _ s.currentColumn s.width s.height s.numMelBands j
      = 255
    unfold mockWrite
    split
    · have hband : min ((s.height - 1 - j / 4 / s.width) * s.numMelBands / s.height)
          (s.numMelBands - 1) < s.numMelBands := by
        have := Nat.min_le_right
          ((s.height - 1 - j / 4 / s.width) * s.numMelBands / s.height)
          (s.numMelBands - 1)
        omega
      rw [hj4, add_assoc, writeRingColumn_in _ _ _ _ _ (by omega)]
      show colorizeColumn d s.minValue s.maxValue _
        (4 * min ((s.height - 1 - j / 4 / s.width) * s.numMelBands / s.height)
          (s.numMelBands - 1) + 3) = 255
      unfold colorizeColumn
      have h4 : (4 * min ((s.height - 1 - j / 4 / s.width) * s.numMelBands / s.height)
          (s.numMelBands - 1) + 3) / 4
          = min ((s.height - 1 - j / 4 / s.width) * s.numMelBands / s.height)
            (s.numMelBands - 1) := by omega
      have h43 : (4 * min ((s.height - 1 - j / 4 / s.width) * s.numMelBands / s.height)
          (s.numMelBands - 1) + 3) % 4 = 3 := by omega
      rw [h4, h43]
      have hlen : min ((s.height - 1 - j / 4 / s.width) * s.numMelBands / s.height)
          (s.numMelBands - 1) < d.length := by omega
      rw [if_pos hlen]
    · exact hA j hj4 hjlt

theorem runUpdates_alphaOk (s0 : TRState) (ds : List (List ℚ))
    (hnb : 0 < s0.numMelBands) (hA : AlphaOk s0) :
    AlphaOk (runUpdates s0 ds) := by
  induction ds generalizing s0 with
  | nil => exact hA
  | cons d ds ih =>
    have hrw : runUpdates s0 (d :: ds) = runUpdates (updateColumn s0 d).1 ds := rfl
    rw [hrw]
    exact ih (updateColumn s0 d).1
      (by rw [(updateColumn_preserves s0 d).2.2.1]; exact hnb)
      (updateColumn_alphaOk s0 d hnb hA)

/-- C10 counterexample: a freshly constructed processor has an all-zero
`colorMappedData_` buffer (`resize` zero-fills it, applyColorMapping has
not yet run), so byte 3 - the alpha byte of band 0, within the
`4 * numBands`-byte buffer - reads 0, not 255. -/
theorem c10_counterexample :
    getColorMappedData (initState cfg4) 3 = 0 ∧ (0 : ℕ) ≠ 255 ∧
    3 < 4 * 2 := by
  exact ⟨rfl, by norm_num, by norm_num⟩

/-- C10 amended: every alpha byte that the pipeline *writes* is 255: the
Waterfall Buffer's raster starts with alpha 255 in every pixel and keeps it
across any sequence of `updateColumn` calls (so every fourth byte of
`getTextureData` is always 255), and after any *successful* `processFrame`
call every fourth byte of `getColorMappedData` is 255.  (Before the first
successful frame, however, `getColorMappedData` is all zeros - see the
counterexample - so the claim's "for any sequence of operations" fails for
the color-mapped buffer.) -/
theorem c10_amended_alpha (W H nb : ℕ) (hnb : 0 < nb) (ds : List (List ℚ))
    (j : ℕ) (hj : j % 4 = 3) (hjlt : j < 4 * (W * H))
    (s : PState) (frame : List ℤ) (durationUs : ℤ) (elapsedMs : ℚ)
    (hfr : (frame.length : ℤ) = s.config.frameSize) (i : ℕ)
    (hi : i < s.config.numMelBands.toNat) :
    getTextureData (runUpdates (mkTextureRenderer W H nb) ds) j = 255 ∧
    getColorMappedData (processAudioFrame s (some frame) durationUs elapsedMs).1
      (4 * i + 3) = 255 := by
  constructor
  · have hA := runUpdates_alphaOk (mkTextureRenderer W H nb) ds hnb
      (mkTextureRenderer_alphaOk W H nb)
    have hW := runUpdates_width W H nb ds
    have hH := runUpdates_height W H nb ds
    exact hA j hj (by rw [hW, hH]; exact hjlt)
  · rw [processAudioFrame_success _ _ _ _ hfr]
    show applyColorMappingFn (frameMelSpectrum s frame) s.colorMap
      s.config.numMelBands (4 * i + 3) = 255
    unfold applyColorMappingFn
    have h4 : (4 * i + 3) / 4 = i := by omega
    have h43 : (4 * i + 3) % 4 = 3 := by omega
    rw [h4, h43, if_pos hi]

/-- Witness for C10's amended theorem at a concrete input. -/
theorem c10_witness :
    getTextureData (runUpdates (mkTextureRenderer 2 1 1) [[0]]) 3 = 255 ∧
    getColorMappedData
      (processAudioFrame (initState cfg4) (some zeroFrame4) 0 0).1 (4 * 0 + 3)
      = 255 :=
  c10_amended_alpha 2 1 1 (by norm_num) [[0]] 3 (by norm_num) (by norm_num)
    (initState cfg4) zeroFrame4 0 0 (by simp [zeroFrame4, initState, cfg4]) 0
    (by norm_num [initState, cfg4])

end FlutterSp
